import Mathlib

/-!
Shallow embedding of the internal transfers system core: the domain error
model (internal/models/errors.go), money parsing (internal/models/money.go
over the shopspring decimal library), and the transfer engine
(internal/service, TransferService) together with its retry loop and the
paging rules of GetAccountTransactions. Balances and amounts are exact
decimals in the source (shopspring decimal) and are modelled as rationals.
The ledger store is modelled as per-attempt behaviour records plus an
explicit trace of the store calls the engine makes, so that lock order,
balance writes, rollbacks and retries are all observable.
-/

namespace Transfers

/-- Exact decimal amounts (shopspring decimal values) modelled as rationals. -/
abbrev Money := ℚ

/-- Account row: models.Account (timestamps omitted, they play no role in the engine). -/
structure Account where
  accountID : Int
  balance : Money
deriving DecidableEq

/-- Transfer record: models.Transaction (creation timestamp omitted). -/
structure Transaction where
  transactionID : Int
  sourceAccountID : Int
  destinationAccountID : Int
  amount : Money
deriving DecidableEq

/-- Wire request for a transfer: models.CreateTransactionRequest. -/
structure CreateTransactionRequest where
  sourceAccountID : Int
  destinationAccountID : Int
  amount : String
deriving DecidableEq

/-- Error codes of the closed domain error set, from internal/models/errors.go. -/
inductive ErrCode where
  | accountNotFound
  | insufficientBalance
  | invalidAmount
  | currencyMismatch
  | sameAccount
  | transferNotFound
  | accountAlreadyExists
  | duplicateTransaction
  | databaseError
  | transactionFailed
  | internalError
deriving DecidableEq

/-- String constants of the error codes, from internal/models/errors.go. -/
def ErrCode.str : ErrCode → String
  | .accountNotFound => "account_not_found"
  | .insufficientBalance => "insufficient_balance"
  | .invalidAmount => "invalid_amount"
  | .currencyMismatch => "currency_mismatch"
  | .sameAccount => "same_account"
  | .transferNotFound => "transaction_not_found"
  | .accountAlreadyExists => "account_exists"
  | .duplicateTransaction => "duplicate_transaction"
  | .databaseError => "database_error"
  | .transactionFailed => "transaction_failed"
  | .internalError => "internal_error"

/-- Go error values as seen by the engine: either a plain error (errors.New,
driver errors) or a DomainError with code, message and optional wrapped
cause; the two DomainError shapes model a nil and a non-nil Cause field. -/
inductive Err where
  | base (msg : String)
  | domain (code : ErrCode) (message : String)
  | wrapped (code : ErrCode) (message : String) (cause : Err)
deriving DecidableEq

/-- Rendering of DomainError.Error() and of plain error strings, from errors.go:
a code prefix, the message, and the cause text when a cause is present. -/
def Err.errString : Err → String
  | .base msg => msg
  | .domain code message => code.str ++ ": " ++ message
  | .wrapped code message cause => code.str ++ ": " ++ message ++ ": " ++ cause.errString

/-- WrapError from errors.go: an optional cause produces the corresponding
DomainError shape. -/
def wrapErr (code : ErrCode) (message : String) (cause : Option Err) : Err :=
  match cause with
  | none => .domain code message
  | some c => .wrapped code message c

def ErrAccountNotFound : Err := .domain .accountNotFound "account not found"

def ErrInsufficientBalance : Err :=
  .domain .insufficientBalance "insufficient balance for this transaction"

def ErrInvalidAmount : Err := .domain .invalidAmount "amount must be a positive decimal value"

def ErrSameAccount : Err :=
  .domain .sameAccount "source and destination accounts cannot be the same"

def ErrTransferNotFound : Err := .domain .transferNotFound "transaction not found"

/-- Boolean substring test on character lists, modelling strings.Contains. -/
def containsChars (s pat : List Char) : Bool := decide (pat <:+: s)

/-- IsRetryable from errors.go: nil is not retryable; otherwise the lowercased
error text is scanned for the four transient-failure markers. -/
def IsRetryable (e : Option Err) : Bool :=
  match e with
  | none => false
  | some err =>
    let s := (Err.errString err).toList.map Char.toLower
    containsChars s "deadlock".toList || containsChars s "serialize".toList ||
      containsChars s "connection".toList || containsChars s "timeout".toList

/-- Digit-string value, modelling the digits accepted by big.Int SetString in
base 10: fails on an empty list or on any non-digit character. -/
def digitsVal (cs : List Char) : Option Nat :=
  if cs.isEmpty then none
  else if cs.all Char.isDigit then
    some (cs.foldl (fun a c => a * 10 + (c.toNat - 48)) 0)
  else none

/-- Signed integer parsing, modelling big.Int SetString in base 10 and
strconv.ParseInt: an optional sign followed by at least one digit. -/
def parseSignedInt (cs : List Char) : Option Int :=
  match cs with
  | '+' :: rest => (digitsVal rest).map (fun n => (n : Int))
  | '-' :: rest => (digitsVal rest).map (fun n => -(n : Int))
  | _ => (digitsVal cs).map (fun n => (n : Int))

/-- Splitting at the first occurrence of the exponent marker, modelling
strings.IndexAny of the characters e and E in decimal.NewFromString. -/
def splitAtExp : List Char → List Char × Option (List Char)
  | [] => ([], none)
  | c :: rest =>
    if c == 'e' || c == 'E' then ([], some rest)
    else
      let r := splitAtExp rest
      (c :: r.1, r.2)

/-- Splitting at the first decimal point of the mantissa. -/
def breakAtDot : List Char → List Char × Option (List Char)
  | [] => ([], none)
  | c :: rest =>
    if c == '.' then ([], some rest)
    else
      let r := breakAtDot rest
      (c :: r.1, r.2)

/-- Mantissa parsing of decimal.NewFromString: the digits before and after at
most one decimal point are concatenated into one signed integer and the
fraction length is recorded; a trailing point or a second point fails. -/
def mantissaVal (cs : List Char) : Option (Int × Nat) :=
  match breakAtDot cs with
  | (intPart, none) => (parseSignedInt intPart).map (fun v => (v, 0))
  | (intPart, some fracPart) =>
    if fracPart.isEmpty then none
    else if fracPart.any (fun c => c == '.') then none
    else (parseSignedInt (intPart ++ fracPart)).map (fun v => (v, fracPart.length))

/-- Exact value of a decimal coefficient and signed power-of-ten exponent. -/
def decShift (v : Int) (e : Int) : ℚ :=
  if 0 ≤ e then ((v * 10 ^ e.toNat : ℤ) : ℚ)
  else (v : ℚ) / ((10 ^ (-e).toNat : ℤ) : ℚ)

/-- Modelled from the external shopspring decimal library used by money.go:
decimal.NewFromString parses an optional sign, digits with at most one
decimal point, and an optional e or E exponent, into an exact decimal value;
the int32 range limit on the exponent is not modelled. -/
def parseDecimal (s : String) : Option ℚ :=
  let me := splitAtExp s.toList
  let expVal : Option Int :=
    match me.2 with
    | none => some 0
    | some cs => parseSignedInt cs
  match expVal, mantissaVal me.1 with
  | some e, some vf => some (decShift vf.1 (e - vf.2))
  | _, _ => none

/-- ParseMoney from internal/models/money.go: the empty string is rejected,
anything else is given to the decimal parser. -/
def ParseMoney (s : String) : Option ℚ :=
  if s = "" then none else parseDecimal s

/-- Observable store interaction of one engine run: every call the engine
makes through the repository interfaces, in order. A lock event carries the
account the store returned, or none when the lock call failed; a wait event
carries the backoff duration in nanoseconds handed to the timer. -/
inductive Event where
  | beginTx
  | lock (id : Int) (result : Option Account)
  | updateBalance (id : Int) (newBalance : Money)
  | createTxn (source dest : Int) (amount : Money)
  | commit
  | rollback
  | wait (d : Int)
deriving DecidableEq

/-- Store behaviour during a single attempt: the outcome of BeginTx, of
GetByIDForUpdate per account id, of UpdateBalance per id and written value,
of the transaction insert (returning the assigned id on success) and of
Commit. This models the AccountRepository and TransactionRepository ports
the engine calls inside one store transaction. -/
structure AttemptEnv where
  beginResult : Option Err
  lockResult : Int → Except Err Account
  updateResult : Int → Money → Option Err
  createResult : Except Err Int
  commitResult : Option Err

/-- One transfer attempt, from TransferService.executeTransfer: begin a store
transaction, lock the two accounts lower id first, reassign roles by id,
check sufficiency, write both balances, insert the transfer record, commit;
the deferred rollback call runs on every exit path. -/
def executeTransfer (env : AttemptEnv) (sourceID destID : Int) (amount : Money) :
    Except Err Transaction × List Event :=
  match env.beginResult with
  | some e => (.error (.wrapped .databaseError "failed to begin transaction" e), [.beginTx])
  | none =>
    let ids := if sourceID > destID then (destID, sourceID) else (sourceID, destID)
    match env.lockResult ids.1 with
    | .error e => (.error e, [.beginTx, .lock ids.1 none, .rollback])
    | .ok first =>
      match env.lockResult ids.2 with
      | .error e =>
        (.error e, [.beginTx, .lock ids.1 (some first), .lock ids.2 none, .rollback])
      | .ok second =>
        let roles := if ids.1 = sourceID then (first, second) else (second, first)
        let sourceAccount := roles.1
        let destAccount := roles.2
        if sourceAccount.balance < amount then
          (.error ErrInsufficientBalance,
            [.beginTx, .lock ids.1 (some first), .lock ids.2 (some second), .rollback])
        else
          let newSourceBalance := sourceAccount.balance - amount
          let newDestBalance := destAccount.balance + amount
          match env.updateResult sourceAccount.accountID newSourceBalance with
          | some e =>
            (.error (.wrapped .databaseError "failed to update source balance" e),
              [.beginTx, .lock ids.1 (some first), .lock ids.2 (some second),
                .updateBalance sourceAccount.accountID newSourceBalance, .rollback])
          | none =>
            match env.updateResult destAccount.accountID newDestBalance with
            | some e =>
              (.error (.wrapped .databaseError "failed to update destination balance" e),
                [.beginTx, .lock ids.1 (some first), .lock ids.2 (some second),
                  .updateBalance sourceAccount.accountID newSourceBalance,
                  .updateBalance destAccount.accountID newDestBalance, .rollback])
            | none =>
              match env.createResult with
              | .error e =>
                (.error (.wrapped .databaseError "failed to create transaction record" e),
                  [.beginTx, .lock ids.1 (some first), .lock ids.2 (some second),
                    .updateBalance sourceAccount.accountID newSourceBalance,
                    .updateBalance destAccount.accountID newDestBalance,
                    .createTxn sourceID destID amount, .rollback])
              | .ok tid =>
                match env.commitResult with
                | some e =>
                  (.error (.wrapped .databaseError "failed to commit transaction" e),
                    [.beginTx, .lock ids.1 (some first), .lock ids.2 (some second),
                      .updateBalance sourceAccount.accountID newSourceBalance,
                      .updateBalance destAccount.accountID newDestBalance,
                      .createTxn sourceID destID amount, .commit, .rollback])
                | none =>
                  (.ok ⟨tid, sourceID, destID, amount⟩,
                    [.beginTx, .lock ids.1 (some first), .lock ids.2 (some second),
                      .updateBalance sourceAccount.accountID newSourceBalance,
                      .updateBalance destAccount.accountID newDestBalance,
                      .createTxn sourceID destID amount, .commit, .rollback])

/-- Decidable equality for fallible results, used to evaluate the engine on
concrete inputs. -/
instance {α β : Type} [DecidableEq α] [DecidableEq β] : DecidableEq (Except α β) := fun a b =>
  match a, b with
  | .error x, .error y =>
    if h : x = y then .isTrue (by rw [h]) else .isFalse (by intro hc; cases hc; exact h rfl)
  | .ok x, .ok y =>
    if h : x = y then .isTrue (by rw [h]) else .isFalse (by intro hc; cases hc; exact h rfl)
  | .error _, .ok _ => .isFalse (by intro hc; cases hc)
  | .ok _, .error _ => .isFalse (by intro hc; cases hc)

/-- Retry configuration: TransferServiceConfig with MaxRetries and
RetryBaseDelay in nanoseconds. -/
structure TransferServiceConfig where
  maxRetries : Nat
  retryBaseDelay : Int

/-- DefaultTransferConfig: MaxRetries 3, RetryBaseDelay 100 milliseconds. -/
def DefaultTransferConfig : TransferServiceConfig := ⟨3, 100000000⟩

/-- Backoff duration before a retry attempt, from the Transfer loop:
RetryBaseDelay times two to the power attempt minus one. The 64-bit
wraparound of the duration shift is not modelled; every attempt number at
which it could occur would first require centuries of accumulated sleep. -/
def retryDelay (cfg : TransferServiceConfig) (attempt : Nat) : Int :=
  cfg.retryBaseDelay * 2 ^ (attempt - 1)

/-- Retry loop body of TransferService.Transfer, recursing over the remaining
attempt budget. Before every attempt after the first the engine waits for the
exponential backoff, returning the caller cancellation error when the
cancellation signal fires during that wait; each attempt runs executeTransfer
against that attempt number store behaviour, returns on success or on a
non-retryable error, and otherwise continues with the error recorded; an
exhausted budget yields a transactionFailed error wrapping the last error. -/
def transferLoop (cfg : TransferServiceConfig) (envs : Nat → AttemptEnv)
    (cancel : Nat → Bool) (ctxErr : Err) (sourceID destID : Int) (amount : Money) :
    Nat → Nat → Option Err → Except Err Transaction × List Event
  | _, 0, lastErr =>
    (.error (wrapErr .transactionFailed "transfer failed after retries" lastErr), [])
  | attempt, remaining + 1, _ =>
    let backoff : List Event := if 0 < attempt then [.wait (retryDelay cfg attempt)] else []
    if 0 < attempt ∧ cancel attempt = true then
      (.error ctxErr, backoff)
    else
      let r := executeTransfer (envs attempt) sourceID destID amount
      match r.1 with
      | .ok txn => (.ok txn, backoff ++ r.2)
      | .error e =>
        if IsRetryable (some e) then
          let rest :=
            transferLoop cfg envs cancel ctxErr sourceID destID amount
              (attempt + 1) remaining (some e)
          (rest.1, backoff ++ r.2 ++ rest.2)
        else
          (.error e, backoff ++ r.2)

/-- TransferService.Transfer: reject identical source and destination, parse
the amount and reject non-positive values, then run the retry loop for
attempts zero through maxRetries with no error recorded yet. -/
def Transfer (cfg : TransferServiceConfig) (envs : Nat → AttemptEnv)
    (cancel : Nat → Bool) (ctxErr : Err) (req : CreateTransactionRequest) :
    Except Err Transaction × List Event :=
  if req.sourceAccountID = req.destinationAccountID then
    (.error ErrSameAccount, [])
  else
    match ParseMoney req.amount with
    | none => (.error ErrInvalidAmount, [])
    | some amount =>
      if amount ≤ 0 then (.error ErrInvalidAmount, [])
      else
        transferLoop cfg envs cancel ctxErr req.sourceAccountID req.destinationAccountID
          amount 0 (cfg.maxRetries + 1) none

def DefaultPageSize : Int := 20

def MaxPageSize : Int := 100

/-- TransferService.GetAccountTransactions: replace a non-positive limit with
the default page size, cap the limit at the maximum page size, clamp a
negative offset to zero, and pass the result to the repository read. -/
def GetAccountTransactions (repoGetByAccountID : Int → Int → Int → Except Err (List Transaction))
    (accountID : Int) (limit offset : Int) : Except Err (List Transaction) :=
  let limit1 := if limit ≤ 0 then DefaultPageSize else limit
  let limit2 := if limit1 > MaxPageSize then MaxPageSize else limit1
  let offset1 := if offset < 0 then 0 else offset
  repoGetByAccountID accountID limit2 offset1

/-- Effective page size as the specification words it: the default 20 for a
non-positive request, the cap 100 above the cap, the request otherwise. -/
def effectiveLimit (limit : Int) : Int :=
  if limit ≤ 0 then 20 else if limit > 100 then 100 else limit

/-- Effective offset as the specification words it: a negative request is
clamped to zero. -/
def effectiveOffset (offset : Int) : Int := max offset 0

/-- Recognizer of the store-transaction start event. -/
def isBeginTx : Event → Bool
  | .beginTx => true
  | _ => false

/-- Number of store transactions begun in a trace, one per attempt. -/
def countBeginTx (tr : List Event) : Nat := (tr.filter isBeginTx).length

/-- Backoff durations appearing in a trace, in order. -/
def waitsOf (tr : List Event) : List Int :=
  tr.filterMap fun e =>
    match e with
    | .wait d => some d
    | _ => none

/-- Account id of a lock call event. -/
def lockIdOf (e : Event) : Option Int :=
  match e with
  | .lock id _ => some id
  | _ => none

/-- Account returned by a successful lock call event. -/
def lockAccountOf (e : Event) : Option Account :=
  match e with
  | .lock _ (some a) => some a
  | _ => none

/-- Target id and written value of a balance write event. -/
def updateOf (e : Event) : Option (Int × Money) :=
  match e with
  | .updateBalance id v => some (id, v)
  | _ => none

/-- Every attempt begins exactly one store transaction: the BeginTx call is
the first store call of executeTransfer and is never repeated within the
attempt, so counting BeginTx events counts attempts. -/
theorem executeTransfer_beginCount (env : AttemptEnv) (s d : Int) (amt : Money) :
    countBeginTx (executeTransfer env s d amt).2 = 1 := by
  rcases hb : env.beginResult with _ | e
  · rcases hl1 : env.lockResult (if s > d then (d, s) else (s, d)).1 with e1 | a1
    · simp [executeTransfer, countBeginTx, isBeginTx, hb, hl1]
    · rcases hl2 : env.lockResult (if s > d then (d, s) else (s, d)).2 with e2 | a2
      · simp [executeTransfer, countBeginTx, isBeginTx, hb, hl1, hl2]
      · by_cases hbal :
          (if (if s > d then (d, s) else (s, d)).1 = s then (a1, a2) else (a2, a1)).1.balance < amt
        · simp [executeTransfer, countBeginTx, isBeginTx, hb, hl1, hl2, hbal]
        · rcases hu1 : env.updateResult
              (if (if s > d then (d, s) else (s, d)).1 = s then (a1, a2) else (a2, a1)).1.accountID
              ((if (if s > d then (d, s) else (s, d)).1 = s then (a1, a2) else (a2, a1)).1.balance - amt)
            with _ | e3
          · rcases hu2 : env.updateResult
                (if (if s > d then (d, s) else (s, d)).1 = s then (a1, a2) else (a2, a1)).2.accountID
                ((if (if s > d then (d, s) else (s, d)).1 = s then (a1, a2) else (a2, a1)).2.balance + amt)
              with _ | e4
            · rcases hc : env.createResult with e5 | tid
              · simp [executeTransfer, countBeginTx, isBeginTx, hb, hl1, hl2, hbal, hu1, hu2, hc]
              · rcases hcm : env.commitResult with _ | e6
                · simp [executeTransfer, countBeginTx, isBeginTx, hb, hl1, hl2, hbal, hu1, hu2, hc, hcm]
                · simp [executeTransfer, countBeginTx, isBeginTx, hb, hl1, hl2, hbal, hu1, hu2, hc, hcm]
            · simp [executeTransfer, countBeginTx, isBeginTx, hb, hl1, hl2, hbal, hu1, hu2]
          · simp [executeTransfer, countBeginTx, isBeginTx, hb, hl1, hl2, hbal, hu1]
  · simp [executeTransfer, countBeginTx, isBeginTx, hb]

/-- An attempt never waits: all backoff waiting happens in the retry loop
before the attempt, never inside the store interaction. -/
theorem executeTransfer_no_wait (env : AttemptEnv) (s d : Int) (amt : Money) :
    waitsOf (executeTransfer env s d amt).2 = [] := by
  rcases hb : env.beginResult with _ | e
  · rcases hl1 : env.lockResult (if s > d then (d, s) else (s, d)).1 with e1 | a1
    · simp [executeTransfer, waitsOf, hb, hl1]
    · rcases hl2 : env.lockResult (if s > d then (d, s) else (s, d)).2 with e2 | a2
      · simp [executeTransfer, waitsOf, hb, hl1, hl2]
      · by_cases hbal :
          (if (if s > d then (d, s) else (s, d)).1 = s then (a1, a2) else (a2, a1)).1.balance < amt
        · simp [executeTransfer, waitsOf, hb, hl1, hl2, hbal]
        · rcases hu1 : env.updateResult
              (if (if s > d then (d, s) else (s, d)).1 = s then (a1, a2) else (a2, a1)).1.accountID
              ((if (if s > d then (d, s) else (s, d)).1 = s then (a1, a2) else (a2, a1)).1.balance - amt)
            with _ | e3
          · rcases hu2 : env.updateResult
                (if (if s > d then (d, s) else (s, d)).1 = s then (a1, a2) else (a2, a1)).2.accountID
                ((if (if s > d then (d, s) else (s, d)).1 = s then (a1, a2) else (a2, a1)).2.balance + amt)
              with _ | e4
            · rcases hc : env.createResult with e5 | tid
              · simp [executeTransfer, waitsOf, hb, hl1, hl2, hbal, hu1, hu2, hc]
              · rcases hcm : env.commitResult with _ | e6
                · simp [executeTransfer, waitsOf, hb, hl1, hl2, hbal, hu1, hu2, hc, hcm]
                · simp [executeTransfer, waitsOf, hb, hl1, hl2, hbal, hu1, hu2, hc, hcm]
            · simp [executeTransfer, waitsOf, hb, hl1, hl2, hbal, hu1, hu2]
          · simp [executeTransfer, waitsOf, hb, hl1, hl2, hbal, hu1]
  · simp [executeTransfer, waitsOf, hb]

/-- Claim C1: for every transfer attempt that reaches the balance-update
step, the two new balances computed and written satisfy conservation: if the
attempt locked two accounts and issued both balance writes, the two written
values sum to the sum of the two locked balances, so no committed transfer
creates or destroys value. -/
theorem executeTransfer_conservation (env : AttemptEnv) (s d : Int) (amt : Money)
    (a1 a2 : Account) (i1 i2 : Int) (v1 v2 : Money)
    (hlocks : (executeTransfer env s d amt).2.filterMap lockAccountOf = [a1, a2])
    (hupdates : (executeTransfer env s d amt).2.filterMap updateOf = [(i1, v1), (i2, v2)]) :
    v1 + v2 = a1.balance + a2.balance := by
  rcases hb : env.beginResult with _ | e
  · rcases hl1 : env.lockResult (if s > d then (d, s) else (s, d)).1 with e1 | b1
    · simp [executeTransfer, lockAccountOf, updateOf, hb, hl1] at hupdates
    · rcases hl2 : env.lockResult (if s > d then (d, s) else (s, d)).2 with e2 | b2
      · simp [executeTransfer, lockAccountOf, updateOf, hb, hl1, hl2] at hupdates
      · by_cases hbal :
          (if (if s > d then (d, s) else (s, d)).1 = s then (b1, b2) else (b2, b1)).1.balance < amt
        · simp [executeTransfer, lockAccountOf, updateOf, hb, hl1, hl2, hbal] at hupdates
        · rcases hu1 : env.updateResult
              (if (if s > d then (d, s) else (s, d)).1 = s then (b1, b2) else (b2, b1)).1.accountID
              ((if (if s > d then (d, s) else (s, d)).1 = s then (b1, b2) else (b2, b1)).1.balance - amt)
            with _ | e3
          · rcases hu2 : env.updateResult
                (if (if s > d then (d, s) else (s, d)).1 = s then (b1, b2) else (b2, b1)).2.accountID
                ((if (if s > d then (d, s) else (s, d)).1 = s then (b1, b2) else (b2, b1)).2.balance + amt)
              with _ | e4
            · rcases hc : env.createResult with e5 | tid
              · simp only [executeTransfer, hb, hl1, hl2, hbal, hu1, hu2, hc, if_neg] at hlocks hupdates
                simp [lockAccountOf, updateOf] at hlocks hupdates
                obtain ⟨hb1, hb2⟩ := hlocks
                obtain ⟨⟨hi1, hv1⟩, hi2, hv2⟩ := hupdates
                subst hb1 hb2 hv1 hv2
                split <;> split <;> ring
              · rcases hcm : env.commitResult with _ | e6
                · simp only [executeTransfer, hb, hl1, hl2, hbal, hu1, hu2, hc, hcm] at hlocks hupdates
                  simp [lockAccountOf, updateOf] at hlocks hupdates
                  obtain ⟨hb1, hb2⟩ := hlocks
                  obtain ⟨⟨hi1, hv1⟩, hi2, hv2⟩ := hupdates
                  subst hb1 hb2 hv1 hv2
                  split <;> split <;> ring
                · simp only [executeTransfer, hb, hl1, hl2, hbal, hu1, hu2, hc, hcm] at hlocks hupdates
                  simp [lockAccountOf, updateOf] at hlocks hupdates
                  obtain ⟨hb1, hb2⟩ := hlocks
                  obtain ⟨⟨hi1, hv1⟩, hi2, hv2⟩ := hupdates
                  subst hb1 hb2 hv1 hv2
                  split <;> split <;> ring
            · simp only [executeTransfer, hb, hl1, hl2, hbal, hu1, hu2] at hlocks hupdates
              simp [lockAccountOf, updateOf] at hlocks hupdates
              obtain ⟨hb1, hb2⟩ := hlocks
              obtain ⟨⟨hi1, hv1⟩, hi2, hv2⟩ := hupdates
              subst hb1 hb2 hv1 hv2
              split <;> split <;> ring
          · simp [executeTransfer, lockAccountOf, updateOf, hb, hl1, hl2, hbal, hu1] at hupdates
  · simp [executeTransfer, lockAccountOf, updateOf, hb] at hupdates

/-- A failed BeginTx aborts the attempt at once: the only store call is the
transaction begin and the result is a DatabaseError wrapping the cause. -/
theorem executeTransfer_begin_failure (env : AttemptEnv) (s d : Int) (amt : Money)
    (c : Err) (hb : env.beginResult = some c) :
    executeTransfer env s d amt
      = (.error (.wrapped .databaseError "failed to begin transaction" c), [.beginTx]) := by
  simp [executeTransfer, hb]

/-- Once the first lock call succeeds, both lock calls are issued and target
the swapped id pair, in that order. -/
theorem executeTransfer_lockIds (env : AttemptEnv) (s d : Int) (amt : Money)
    (hb : env.beginResult = none) (first : Account)
    (hl1 : env.lockResult (if s > d then (d, s) else (s, d)).1 = .ok first) :
    (executeTransfer env s d amt).2.filterMap lockIdOf
      = [(if s > d then (d, s) else (s, d)).1, (if s > d then (d, s) else (s, d)).2] := by
  rcases hl2 : env.lockResult (if s > d then (d, s) else (s, d)).2 with e2 | a2
  · simp [executeTransfer, lockIdOf, hb, hl1, hl2]
  · by_cases hbal :
      (if (if s > d then (d, s) else (s, d)).1 = s then (first, a2) else (a2, first)).1.balance < amt
    · simp [executeTransfer, lockIdOf, hb, hl1, hl2, hbal]
    · rcases hu1 : env.updateResult
          (if (if s > d then (d, s) else (s, d)).1 = s then (first, a2) else (a2, first)).1.accountID
          ((if (if s > d then (d, s) else (s, d)).1 = s then (first, a2) else (a2, first)).1.balance - amt)
        with _ | e3
      · rcases hu2 : env.updateResult
            (if (if s > d then (d, s) else (s, d)).1 = s then (first, a2) else (a2, first)).2.accountID
            ((if (if s > d then (d, s) else (s, d)).1 = s then (first, a2) else (a2, first)).2.balance + amt)
          with _ | e4
        · rcases hc : env.createResult with e5 | tid
          · simp [executeTransfer, lockIdOf, hb, hl1, hl2, hbal, hu1, hu2, hc]
          · rcases hcm : env.commitResult with _ | e6
            · simp [executeTransfer, lockIdOf, hb, hl1, hl2, hbal, hu1, hu2, hc, hcm]
            · simp [executeTransfer, lockIdOf, hb, hl1, hl2, hbal, hu1, hu2, hc, hcm]
        · simp [executeTransfer, lockIdOf, hb, hl1, hl2, hbal, hu1, hu2]
      · simp [executeTransfer, lockIdOf, hb, hl1, hl2, hbal, hu1]

/-- When both locks succeed, the sufficiency check passes and the first write
is accepted by the store, the attempt writes exactly the role-assigned pair:
the debit of the source-role account and the credit of the destination-role
account, in that order. -/
theorem executeTransfer_updates (env : AttemptEnv) (s d : Int) (amt : Money)
    (hb : env.beginResult = none) (first second : Account)
    (hl1 : env.lockResult (if s > d then (d, s) else (s, d)).1 = .ok first)
    (hl2 : env.lockResult (if s > d then (d, s) else (s, d)).2 = .ok second)
    (hbal : ¬ (if (if s > d then (d, s) else (s, d)).1 = s then (first, second)
        else (second, first)).1.balance < amt)
    (hu1 : env.updateResult
        (if (if s > d then (d, s) else (s, d)).1 = s then (first, second)
          else (second, first)).1.accountID
        ((if (if s > d then (d, s) else (s, d)).1 = s then (first, second)
          else (second, first)).1.balance - amt) = none) :
    (executeTransfer env s d amt).2.filterMap updateOf
      = [((if (if s > d then (d, s) else (s, d)).1 = s then (first, second)
            else (second, first)).1.accountID,
          (if (if s > d then (d, s) else (s, d)).1 = s then (first, second)
            else (second, first)).1.balance - amt),
         ((if (if s > d then (d, s) else (s, d)).1 = s then (first, second)
            else (second, first)).2.accountID,
          (if (if s > d then (d, s) else (s, d)).1 = s then (first, second)
            else (second, first)).2.balance + amt)] := by
  rcases hu2 : env.updateResult
      (if (if s > d then (d, s) else (s, d)).1 = s then (first, second) else (second, first)).2.accountID
      ((if (if s > d then (d, s) else (s, d)).1 = s then (first, second) else (second, first)).2.balance + amt)
    with _ | e4
  · rcases hc : env.createResult with e5 | tid
    · simp [executeTransfer, updateOf, hb, hl1, hl2, hbal, hu1, hu2, hc]
    · rcases hcm : env.commitResult with _ | e6
      · simp [executeTransfer, updateOf, hb, hl1, hl2, hbal, hu1, hu2, hc, hcm]
      · simp [executeTransfer, updateOf, hb, hl1, hl2, hbal, hu1, hu2, hc, hcm]
  · simp [executeTransfer, updateOf, hb, hl1, hl2, hbal, hu1, hu2]

/-- Claim C3: for every transfer between two distinct account ids the engine
locks the smaller id first and the larger second regardless of roles, and the
debit and credit writes are reassigned to source and destination by id
comparison; a transfer from id 2 to id 1 therefore locks the order 1 then 2. -/
theorem executeTransfer_lock_order (env : AttemptEnv) (s d : Int) (amt : Money)
    (hne : s ≠ d) (hb : env.beginResult = none) :
    (∀ a, env.lockResult (min s d) = .ok a →
        (executeTransfer env s d amt).2.filterMap lockIdOf = [min s d, max s d]) ∧
    (∀ sa da, env.lockResult s = .ok sa → env.lockResult d = .ok da →
        ¬ sa.balance < amt →
        env.updateResult sa.accountID (sa.balance - amt) = none →
        (executeTransfer env s d amt).2.filterMap updateOf
          = [(sa.accountID, sa.balance - amt), (da.accountID, da.balance + amt)]) := by
  rcases hne.lt_or_lt with hlt | hlt
  · have hgt : ¬ s > d := by omega
    have hif : (if s > d then (d, s) else (s, d)) = (s, d) := by simp [hgt]
    constructor
    · intro a ha
      rw [min_comm] at ha
      rw [min_comm, max_comm]
      rw [min_eq_right hlt.le] at ha
      rw [min_eq_right hlt.le, max_eq_left hlt.le]
      have := executeTransfer_lockIds env s d amt hb a (by rw [hif]; exact ha)
      rw [hif] at this
      exact this
    · intro sa da hsa hda hbal hu1
      have := executeTransfer_updates env s d amt hb sa da
        (by rw [hif]; exact hsa) (by rw [hif]; exact hda)
        (by rw [hif]; simpa using hbal) (by rw [hif]; simpa using hu1)
      rw [hif] at this
      simpa using this
  · have hgt : s > d := hlt
    have hif : (if s > d then (d, s) else (s, d)) = (d, s) := by simp [hgt]
    have hds : ¬ d = s := fun h => hne h.symm
    constructor
    · intro a ha
      rw [min_eq_right hlt.le] at ha
      rw [min_eq_right hlt.le, max_eq_left hlt.le]
      have := executeTransfer_lockIds env s d amt hb a (by rw [hif]; exact ha)
      rw [hif] at this
      exact this
    · intro sa da hsa hda hbal hu1
      have := executeTransfer_updates env s d amt hb da sa
        (by rw [hif]; exact hda) (by rw [hif]; exact hsa)
        (by rw [hif]; simpa [hds] using hbal) (by rw [hif]; simpa [hds] using hu1)
      rw [hif] at this
      simpa [hds] using this

/-- An attempt whose locked source-role balance is below the amount fails
with InsufficientBalance and rolls back after the two lock calls, writing
nothing. -/
theorem executeTransfer_insufficient (env : AttemptEnv) (s d : Int) (amt : Money)
    (hb : env.beginResult = none) (first second : Account)
    (hl1 : env.lockResult (if s > d then (d, s) else (s, d)).1 = .ok first)
    (hl2 : env.lockResult (if s > d then (d, s) else (s, d)).2 = .ok second)
    (hbal : (if (if s > d then (d, s) else (s, d)).1 = s then (first, second)
        else (second, first)).1.balance < amt) :
    executeTransfer env s d amt
      = (.error ErrInsufficientBalance,
         [.beginTx, .lock (if s > d then (d, s) else (s, d)).1 (some first),
          .lock (if s > d then (d, s) else (s, d)).2 (some second), .rollback]) := by
  simp [executeTransfer, hb, hl1, hl2, hbal]

/-- An attempt in which every store call succeeds returns the recorded
transaction and a trace of both locks, both writes, the insert, the commit
and the deferred rollback call on the closed transaction. -/
theorem executeTransfer_success (env : AttemptEnv) (s d : Int) (amt : Money)
    (hb : env.beginResult = none) (first second : Account) (tid : Int)
    (hl1 : env.lockResult (if s > d then (d, s) else (s, d)).1 = .ok first)
    (hl2 : env.lockResult (if s > d then (d, s) else (s, d)).2 = .ok second)
    (hbal : ¬ (if (if s > d then (d, s) else (s, d)).1 = s then (first, second)
        else (second, first)).1.balance < amt)
    (hu1 : env.updateResult
        (if (if s > d then (d, s) else (s, d)).1 = s then (first, second)
          else (second, first)).1.accountID
        ((if (if s > d then (d, s) else (s, d)).1 = s then (first, second)
          else (second, first)).1.balance - amt) = none)
    (hu2 : env.updateResult
        (if (if s > d then (d, s) else (s, d)).1 = s then (first, second)
          else (second, first)).2.accountID
        ((if (if s > d then (d, s) else (s, d)).1 = s then (first, second)
          else (second, first)).2.balance + amt) = none)
    (hc : env.createResult = .ok tid) (hcm : env.commitResult = none) :
    executeTransfer env s d amt
      = (.ok ⟨tid, s, d, amt⟩,
         [.beginTx, .lock (if s > d then (d, s) else (s, d)).1 (some first),
          .lock (if s > d then (d, s) else (s, d)).2 (some second),
          .updateBalance
            (if (if s > d then (d, s) else (s, d)).1 = s then (first, second)
              else (second, first)).1.accountID
            ((if (if s > d then (d, s) else (s, d)).1 = s then (first, second)
              else (second, first)).1.balance - amt),
          .updateBalance
            (if (if s > d then (d, s) else (s, d)).1 = s then (first, second)
              else (second, first)).2.accountID
            ((if (if s > d then (d, s) else (s, d)).1 = s then (first, second)
              else (second, first)).2.balance + amt),
          .createTxn s d amt, .commit, .rollback]) := by
  simp [executeTransfer, hb, hl1, hl2, hbal, hu1, hu2, hc, hcm]

/-- With attempt budget left, a cancellation observed during the backoff wait
of a retry attempt aborts at once with the context error: the only event is
the wait, so the attempt performs no store access. -/
theorem transferLoop_cancelled (cfg : TransferServiceConfig) (envs : Nat → AttemptEnv)
    (cancel : Nat → Bool) (ctxErr : Err) (s d : Int) (amt : Money)
    (attempt r : Nat) (le : Option Err)
    (h0 : 0 < attempt) (hc : cancel attempt = true) :
    transferLoop cfg envs cancel ctxErr s d amt attempt (r + 1) le
      = (.error ctxErr, [.wait (retryDelay cfg attempt)]) := by
  simp [transferLoop, h0, hc]

/-- With attempt budget left and no cancellation, an attempt that fails with
a non-retryable error is returned at once, after the backoff wait when the
attempt number is positive. -/
theorem transferLoop_fatal (cfg : TransferServiceConfig) (envs : Nat → AttemptEnv)
    (cancel : Nat → Bool) (ctxErr : Err) (s d : Int) (amt : Money)
    (attempt r : Nat) (le : Option Err) (e : Err)
    (hcancel : ¬ (0 < attempt ∧ cancel attempt = true))
    (he : (executeTransfer (envs attempt) s d amt).1 = .error e)
    (hretry : IsRetryable (some e) = false) :
    transferLoop cfg envs cancel ctxErr s d amt attempt (r + 1) le
      = (.error e,
         (if 0 < attempt then [Event.wait (retryDelay cfg attempt)] else [])
           ++ (executeTransfer (envs attempt) s d amt).2) := by
  simp only [transferLoop, if_neg hcancel, he, hretry]
  simp

/-- With attempt budget left and no cancellation, an attempt that fails with
a retryable error records the error and continues with the next attempt. -/
theorem transferLoop_retry_step (cfg : TransferServiceConfig) (envs : Nat → AttemptEnv)
    (cancel : Nat → Bool) (ctxErr : Err) (s d : Int) (amt : Money)
    (attempt r : Nat) (le : Option Err) (e : Err)
    (hcancel : ¬ (0 < attempt ∧ cancel attempt = true))
    (he : (executeTransfer (envs attempt) s d amt).1 = .error e)
    (hretry : IsRetryable (some e) = true) :
    transferLoop cfg envs cancel ctxErr s d amt attempt (r + 1) le
      = ((transferLoop cfg envs cancel ctxErr s d amt (attempt + 1) r (some e)).1,
         (if 0 < attempt then [Event.wait (retryDelay cfg attempt)] else [])
           ++ (executeTransfer (envs attempt) s d amt).2
           ++ (transferLoop cfg envs cancel ctxErr s d amt (attempt + 1) r (some e)).2) := by
  simp only [transferLoop, if_neg hcancel, he, hretry]
  simp

/-- An exhausted attempt budget returns a transactionFailed error wrapping
the recorded last error and adds no further events. -/
theorem transferLoop_exhausted (cfg : TransferServiceConfig) (envs : Nat → AttemptEnv)
    (cancel : Nat → Bool) (ctxErr : Err) (s d : Int) (amt : Money)
    (attempt : Nat) (le : Option Err) :
    transferLoop cfg envs cancel ctxErr s d amt attempt 0 le
      = (.error (wrapErr .transactionFailed "transfer failed after retries" le), []) := by
  simp [transferLoop]

/-- A request that passes validation enters the retry loop at attempt zero
with the full budget and no recorded error. -/
theorem Transfer_valid (cfg : TransferServiceConfig) (envs : Nat → AttemptEnv)
    (cancel : Nat → Bool) (ctxErr : Err) (req : CreateTransactionRequest) (amt : Money)
    (hne : req.sourceAccountID ≠ req.destinationAccountID)
    (hp : ParseMoney req.amount = some amt) (hpos : 0 < amt) :
    Transfer cfg envs cancel ctxErr req
      = transferLoop cfg envs cancel ctxErr req.sourceAccountID req.destinationAccountID
          amt 0 (cfg.maxRetries + 1) none := by
  simp [Transfer, hne, hp, not_le.mpr hpos]

/-- With attempt budget left and no cancellation, a successful attempt
returns its transaction at once. -/
theorem transferLoop_success (cfg : TransferServiceConfig) (envs : Nat → AttemptEnv)
    (cancel : Nat → Bool) (ctxErr : Err) (s d : Int) (amt : Money)
    (attempt r : Nat) (le : Option Err) (txn : Transaction)
    (hcancel : ¬ (0 < attempt ∧ cancel attempt = true))
    (he : (executeTransfer (envs attempt) s d amt).1 = .ok txn) :
    transferLoop cfg envs cancel ctxErr s d amt attempt (r + 1) le
      = (.ok txn,
         (if 0 < attempt then [Event.wait (retryDelay cfg attempt)] else [])
           ++ (executeTransfer (envs attempt) s d amt).2) := by
  simp only [transferLoop, if_neg hcancel, he]

/-- Claim C6: a transfer request whose source account id equals its
destination account id fails with SameAccount before any store access, for
every configuration, store behaviour, cancellation pattern and amount text:
the result is the SameAccount error and the store trace is empty. -/
theorem Transfer_same_account (cfg : TransferServiceConfig) (envs : Nat → AttemptEnv)
    (cancel : Nat → Bool) (ctxErr : Err) (id : Int) (amt : String) :
    Transfer cfg envs cancel ctxErr ⟨id, id, amt⟩ = (.error ErrSameAccount, []) := by
  simp [Transfer]

/-- Claim C7: a transfer request with distinct account ids whose amount text
does not parse, or parses to a non-positive value, fails with InvalidAmount
before any store access: the result is the InvalidAmount error and the store
trace is empty. The empty amount text is covered because ParseMoney rejects
the empty string. -/
theorem Transfer_invalid_amount (cfg : TransferServiceConfig) (envs : Nat → AttemptEnv)
    (cancel : Nat → Bool) (ctxErr : Err) (req : CreateTransactionRequest)
    (hne : req.sourceAccountID ≠ req.destinationAccountID)
    (hbad : ParseMoney req.amount = none ∨ ∃ q, ParseMoney req.amount = some q ∧ q ≤ 0) :
    Transfer cfg envs cancel ctxErr req = (.error ErrInvalidAmount, []) := by
  rcases hbad with hp | ⟨q, hp, hq⟩
  · simp [Transfer, hne, hp]
  · simp [Transfer, hne, hp, hq]

/-- Claim C9: the transactions listing uses the default page size 20 when
the requested limit is non-positive, caps the limit at 100 when the request
exceeds 100, passes the requested limit through otherwise, clamps a negative
offset to zero, and passes an empty repository result through as a success. -/
theorem GetAccountTransactions_paging
    (repo : Int → Int → Int → Except Err (List Transaction)) (accountID limit offset : Int) :
    GetAccountTransactions repo accountID limit offset
      = repo accountID (effectiveLimit limit) (effectiveOffset offset) ∧
    (repo accountID (effectiveLimit limit) (effectiveOffset offset) = .ok [] →
      GetAccountTransactions repo accountID limit offset = .ok []) := by
  have hoff : (if offset < 0 then (0 : Int) else offset) = effectiveOffset offset := by
    rcases lt_or_ge offset 0 with h | h
    · simp [effectiveOffset, h, max_eq_right h.le]
    · simp [effectiveOffset, not_lt.mpr h, max_eq_left h]
  have hlim :
      (if (if limit ≤ 0 then DefaultPageSize else limit) > MaxPageSize then MaxPageSize
        else (if limit ≤ 0 then DefaultPageSize else limit)) = effectiveLimit limit := by
    by_cases h : limit ≤ 0
    · simp [effectiveLimit, DefaultPageSize, MaxPageSize, h]
    · simp [effectiveLimit, DefaultPageSize, MaxPageSize, h]
  have hmain : GetAccountTransactions repo accountID limit offset
      = repo accountID (effectiveLimit limit) (effectiveOffset offset) := by
    show repo accountID
        (if (if limit ≤ 0 then DefaultPageSize else limit) > MaxPageSize then MaxPageSize
          else (if limit ≤ 0 then DefaultPageSize else limit))
        (if offset < 0 then 0 else offset)
      = repo accountID (effectiveLimit limit) (effectiveOffset offset)
    rw [hoff, hlim]
  exact ⟨hmain, fun h => hmain.trans h⟩

/-- Role-based reading of an insufficient attempt: whichever role order the
ids dictate, a locked source balance below the amount fails the attempt with
InsufficientBalance after one begun transaction, no balance write and a
rollback. -/
theorem executeTransfer_insufficient_roles (env : AttemptEnv) (s d : Int) (amt : Money)
    (hne : s ≠ d) (hb : env.beginResult = none) (sa da : Account)
    (hsa : env.lockResult s = .ok sa) (hda : env.lockResult d = .ok da)
    (hbal : sa.balance < amt) :
    ∃ tr, executeTransfer env s d amt = (.error ErrInsufficientBalance, tr) ∧
      countBeginTx tr = 1 ∧ tr.filterMap updateOf = [] ∧ Event.rollback ∈ tr := by
  rcases hne.lt_or_lt with hlt | hlt
  · have hif : (if s > d then (d, s) else (s, d)) = (s, d) := by
      simp [show ¬ s > d by omega]
    have h := executeTransfer_insufficient env s d amt hb sa da
      (by rw [hif]; exact hsa) (by rw [hif]; exact hda) (by rw [hif]; simpa using hbal)
    rw [hif] at h
    exact ⟨_, by rw [h], by simp [countBeginTx, isBeginTx], by simp [updateOf], by simp⟩
  · have hgt : s > d := hlt
    have hds : ¬ d = s := fun h => hne h.symm
    have hif : (if s > d then (d, s) else (s, d)) = (d, s) := by simp [hgt]
    have h := executeTransfer_insufficient env s d amt hb da sa
      (by rw [hif]; exact hda) (by rw [hif]; exact hsa) (by rw [hif]; simpa [hds] using hbal)
    rw [hif] at h
    exact ⟨_, by rw [h], by simp [countBeginTx, isBeginTx], by simp [updateOf], by simp⟩

/-- Claim C5: a transfer attempt whose locked source balance is strictly
below the amount fails with InsufficientBalance, rolls the store transaction
back having written no balance, and is fatal: the retry loop returns it at
once after a single attempt. -/
theorem Transfer_insufficient_balance (cfg : TransferServiceConfig) (envs : Nat → AttemptEnv)
    (cancel : Nat → Bool) (ctxErr : Err) (req : CreateTransactionRequest) (amt : Money)
    (sa da : Account)
    (hne : req.sourceAccountID ≠ req.destinationAccountID)
    (hp : ParseMoney req.amount = some amt) (hpos : 0 < amt)
    (hb : (envs 0).beginResult = none)
    (hsa : (envs 0).lockResult req.sourceAccountID = .ok sa)
    (hda : (envs 0).lockResult req.destinationAccountID = .ok da)
    (hbal : sa.balance < amt) :
    ∃ tr, Transfer cfg envs cancel ctxErr req = (.error ErrInsufficientBalance, tr) ∧
      countBeginTx tr = 1 ∧ tr.filterMap updateOf = [] ∧ Event.rollback ∈ tr := by
  obtain ⟨tr, hex, hcount, hupd, hrb⟩ :=
    executeTransfer_insufficient_roles (envs 0) req.sourceAccountID req.destinationAccountID
      amt hne hb sa da hsa hda hbal
  rw [Transfer_valid cfg envs cancel ctxErr req amt hne hp hpos]
  rw [transferLoop_fatal cfg envs cancel ctxErr req.sourceAccountID req.destinationAccountID
    amt 0 cfg.maxRetries none ErrInsufficientBalance (by simp) (by rw [hex]) (by decide)]
  exact ⟨tr, by simp [hex], hcount, hupd, hrb⟩

/-- Role-based reading of a fully successful attempt: the attempt returns the
recorded transaction and its trace holds the debit write of the source-role
account. -/
theorem executeTransfer_success_roles (env : AttemptEnv) (s d : Int) (amt : Money)
    (hne : s ≠ d) (hb : env.beginResult = none) (sa da : Account) (tid : Int)
    (hsa : env.lockResult s = .ok sa) (hda : env.lockResult d = .ok da)
    (hbal : ¬ sa.balance < amt)
    (hu1 : env.updateResult sa.accountID (sa.balance - amt) = none)
    (hu2 : env.updateResult da.accountID (da.balance + amt) = none)
    (hc : env.createResult = .ok tid) (hcm : env.commitResult = none) :
    ∃ tr, executeTransfer env s d amt = (.ok ⟨tid, s, d, amt⟩, tr) ∧
      Event.updateBalance sa.accountID (sa.balance - amt) ∈ tr := by
  rcases hne.lt_or_lt with hlt | hlt
  · have hif : (if s > d then (d, s) else (s, d)) = (s, d) := by
      simp [show ¬ s > d by omega]
    have h := executeTransfer_success env s d amt hb sa da tid
      (by rw [hif]; exact hsa) (by rw [hif]; exact hda) (by rw [hif]; simpa using hbal)
      (by rw [hif]; simpa using hu1) (by rw [hif]; simpa using hu2) hc hcm
    rw [hif] at h
    exact ⟨_, by rw [h], by simp⟩
  · have hgt : s > d := hlt
    have hds : ¬ d = s := fun h => hne h.symm
    have hif : (if s > d then (d, s) else (s, d)) = (d, s) := by simp [hgt]
    have h := executeTransfer_success env s d amt hb da sa tid
      (by rw [hif]; exact hda) (by rw [hif]; exact hsa) (by rw [hif]; simpa [hds] using hbal)
      (by rw [hif]; simpa [hds] using hu1) (by rw [hif]; simpa [hds] using hu2) hc hcm
    rw [hif] at h
    exact ⟨_, by rw [h], by simp [hds]⟩

/-- Claim C10: a transfer attempt whose locked source balance equals the
amount passes the strict less-than sufficiency check, succeeds when the store
accepts the writes, and writes a source balance of exactly zero: draining an
account to zero is allowed and keeps the balance non-negative. -/
theorem Transfer_exact_balance_drain (cfg : TransferServiceConfig) (envs : Nat → AttemptEnv)
    (cancel : Nat → Bool) (ctxErr : Err) (req : CreateTransactionRequest) (amt : Money)
    (sa da : Account) (tid : Int)
    (hne : req.sourceAccountID ≠ req.destinationAccountID)
    (hp : ParseMoney req.amount = some amt) (hpos : 0 < amt)
    (hb : (envs 0).beginResult = none)
    (hsa : (envs 0).lockResult req.sourceAccountID = .ok sa)
    (hda : (envs 0).lockResult req.destinationAccountID = .ok da)
    (hbal : sa.balance = amt)
    (hu1 : (envs 0).updateResult sa.accountID (sa.balance - amt) = none)
    (hu2 : (envs 0).updateResult da.accountID (da.balance + amt) = none)
    (hc : (envs 0).createResult = .ok tid) (hcm : (envs 0).commitResult = none) :
    ∃ tr, Transfer cfg envs cancel ctxErr req
        = (.ok ⟨tid, req.sourceAccountID, req.destinationAccountID, amt⟩, tr) ∧
      sa.balance - amt = 0 ∧ Event.updateBalance sa.accountID 0 ∈ tr := by
  have hnl : ¬ sa.balance < amt := by rw [hbal]; exact lt_irrefl amt
  have hz : sa.balance - amt = 0 := by rw [hbal]; ring
  obtain ⟨tr, hex, hmem⟩ :=
    executeTransfer_success_roles (envs 0) req.sourceAccountID req.destinationAccountID
      amt hne hb sa da tid hsa hda hnl hu1 hu2 hc hcm
  rw [Transfer_valid cfg envs cancel ctxErr req amt hne hp hpos]
  rw [transferLoop_success cfg envs cancel ctxErr req.sourceAccountID req.destinationAccountID
    amt 0 cfg.maxRetries none _ (by simp) (by rw [hex])]
  exact ⟨tr, by simp [hex], hz, hz ▸ hmem⟩

/-- Attempt counting distributes over trace concatenation. -/
theorem countBeginTx_append (xs ys : List Event) :
    countBeginTx (xs ++ ys) = countBeginTx xs + countBeginTx ys := by
  simp [countBeginTx, List.filter_append]

/-- A backoff wait begins no store transaction. -/
theorem countBeginTx_backoff (p : Prop) [Decidable p] (d : Int) :
    countBeginTx (if p then [Event.wait d] else []) = 0 := by
  split <;> simp [countBeginTx, isBeginTx]

/-- Backoff waits distribute over trace concatenation. -/
theorem waitsOf_append (xs ys : List Event) :
    waitsOf (xs ++ ys) = waitsOf xs ++ waitsOf ys := by
  simp [waitsOf]

/-- When every attempt in the remaining window fails with a retryable error
and the caller never cancels, the loop runs the whole window, returns a
transactionFailed error wrapping the last attempt error, and begins exactly
one store transaction per budgeted attempt. -/
theorem transferLoop_all_retryable (cfg : TransferServiceConfig) (envs : Nat → AttemptEnv)
    (cancel : Nat → Bool) (ctxErr : Err) (s d : Int) (amt : Money) :
    ∀ (r a : Nat) (le : Option Err), 0 < r →
    (∀ k, a ≤ k → k < a + r →
      ∃ e, (executeTransfer (envs k) s d amt).1 = .error e ∧ IsRetryable (some e) = true) →
    (∀ k, cancel k = false) →
    ∃ eLast tr,
      (executeTransfer (envs (a + r - 1)) s d amt).1 = .error eLast ∧
      transferLoop cfg envs cancel ctxErr s d amt a r le
        = (.error (.wrapped .transactionFailed "transfer failed after retries" eLast), tr) ∧
      countBeginTx tr = r := by
  intro r
  induction r with
  | zero => intro a le h0; omega
  | succ n ih =>
    intro a le _ hall hcancel
    obtain ⟨e, he, hre⟩ := hall a (le_refl a) (by omega)
    have hcan : ¬ (0 < a ∧ cancel a = true) := by simp [hcancel a]
    rcases Nat.eq_zero_or_pos n with hn | hn
    · subst hn
      rw [transferLoop_retry_step cfg envs cancel ctxErr s d amt a 0 le e hcan he hre]
      rw [transferLoop_exhausted]
      refine ⟨e, _, by simpa using he, rfl, ?_⟩
      simp only [countBeginTx_append, countBeginTx_backoff,
        executeTransfer_beginCount (envs a) s d amt]
      simp [countBeginTx]
    · rw [transferLoop_retry_step cfg envs cancel ctxErr s d amt a n le e hcan he hre]
      obtain ⟨eL, tr, heL, hloop, hcount⟩ :=
        ih (a + 1) (some e) hn (fun k hk1 hk2 => hall k (by omega) (by omega)) hcancel
      have hidx : a + 1 + n - 1 = a + (n + 1) - 1 := by omega
      rw [hidx] at heL
      rw [hloop]
      refine ⟨eL, _, heL, rfl, ?_⟩
      simp only [countBeginTx_append, countBeginTx_backoff,
        executeTransfer_beginCount (envs a) s d amt]
      simp [hcount]
      omega

/-- Claim C4: when every attempt fails with a retryable error and the caller
never cancels, the engine performs exactly maxRetries plus one attempts,
attempt zero through maxRetries, and returns a TransactionFailed error
wrapping the last attempt error as its cause, never the raw cause itself and
never an unbounded number of retries. -/
theorem Transfer_retries_exhausted (cfg : TransferServiceConfig) (envs : Nat → AttemptEnv)
    (cancel : Nat → Bool) (ctxErr : Err) (req : CreateTransactionRequest) (amt : Money)
    (hne : req.sourceAccountID ≠ req.destinationAccountID)
    (hp : ParseMoney req.amount = some amt) (hpos : 0 < amt)
    (hall : ∀ k, ∃ e,
      (executeTransfer (envs k) req.sourceAccountID req.destinationAccountID amt).1 = .error e ∧
      IsRetryable (some e) = true)
    (hcancel : ∀ k, cancel k = false) :
    ∃ eLast tr,
      (executeTransfer (envs cfg.maxRetries) req.sourceAccountID req.destinationAccountID
        amt).1 = .error eLast ∧
      Transfer cfg envs cancel ctxErr req
        = (.error (.wrapped .transactionFailed "transfer failed after retries" eLast), tr) ∧
      countBeginTx tr = cfg.maxRetries + 1 := by
  rw [Transfer_valid cfg envs cancel ctxErr req amt hne hp hpos]
  have h := transferLoop_all_retryable cfg envs cancel ctxErr
    req.sourceAccountID req.destinationAccountID amt (cfg.maxRetries + 1) 0 none
    (by omega) (fun k hk1 hk2 => hall k) hcancel
  simpa using h

/-- When the attempts of a window fail with retryable errors and the
cancellation signal first fires during the backoff wait of the attempt just
past the window, the loop returns the context error right after that wait:
the trace ends with the wait of that attempt and the earlier backoff waits
are exactly the exponential delays of the window, in order. -/
theorem transferLoop_cancel_at (cfg : TransferServiceConfig) (envs : Nat → AttemptEnv)
    (cancel : Nat → Bool) (ctxErr : Err) (s d : Int) (amt : Money) :
    ∀ (m a r : Nat) (le : Option Err), 0 < a → m < r →
    (∀ k, a ≤ k → k < a + m →
      ∃ e, (executeTransfer (envs k) s d amt).1 = .error e ∧ IsRetryable (some e) = true) →
    (∀ k, a ≤ k → k < a + m → cancel k = false) →
    cancel (a + m) = true →
    ∃ pre,
      transferLoop cfg envs cancel ctxErr s d amt a r le
        = (.error ctxErr, pre ++ [.wait (retryDelay cfg (a + m))]) ∧
      waitsOf pre = (List.range m).map (fun i => retryDelay cfg (a + i)) := by
  intro m
  induction m with
  | zero =>
    intro a r le ha hr hall hcf hcn
    rcases r with _ | r1
    · omega
    · rw [transferLoop_cancelled cfg envs cancel ctxErr s d amt a r1 le ha (by simpa using hcn)]
      exact ⟨[], by simp, by simp [waitsOf]⟩
  | succ n ih =>
    intro a r le ha hr hall hcf hcn
    rcases r with _ | r1
    · omega
    · obtain ⟨e, he, hre⟩ := hall a (le_refl a) (by omega)
      have hcan : ¬ (0 < a ∧ cancel a = true) := by
        simp [hcf a (le_refl a) (by omega)]
      rw [transferLoop_retry_step cfg envs cancel ctxErr s d amt a r1 le e hcan he hre]
      obtain ⟨pre1, hloop, hwaits⟩ :=
        ih (a + 1) r1 (some e) (by omega) (by omega)
          (fun k hk1 hk2 => hall k (by omega) (by omega))
          (fun k hk1 hk2 => hcf k (by omega) (by omega))
          (by have harr : a + 1 + n = a + (n + 1) := by omega
              rw [harr]; exact hcn)
      rw [hloop]
      refine ⟨[Event.wait (retryDelay cfg a)] ++ (executeTransfer (envs a) s d amt).2 ++ pre1,
        ?_, ?_⟩
      · have h1a : (if 0 < a then [Event.wait (retryDelay cfg a)] else [])
            = [Event.wait (retryDelay cfg a)] := by simp [ha]
        rw [h1a]
        have harr : a + 1 + n = a + (n + 1) := by omega
        rw [harr]
        simp [List.append_assoc]
      · rw [waitsOf_append, waitsOf_append,
          executeTransfer_no_wait (envs a) s d amt, hwaits]
        have hw : waitsOf [Event.wait (retryDelay cfg a)] = [retryDelay cfg a] := by
          simp [waitsOf]
        rw [hw, List.range_succ_eq_map, List.map_cons, List.map_map]
        simp only [List.nil_append, Nat.add_zero, List.singleton_append]
        congr 1
        apply List.map_congr_left
        intro i hi
        simp only [Function.comp_apply]
        congr 1
        omega

/-- Claim C8: before retry attempt n the engine waits exactly
retryBaseDelay times two to the power n minus one, and every earlier retry
attempt k was preceded by exactly the wait of delay k in order; when the
caller cancellation fires during the wait before attempt n, the engine
returns the context error itself, not a DatabaseError, and performs no store
access for that attempt: the trace ends at that wait. -/
theorem Transfer_backoff_cancellation (cfg : TransferServiceConfig) (envs : Nat → AttemptEnv)
    (cancel : Nat → Bool) (ctxErr : Err) (req : CreateTransactionRequest) (amt : Money)
    (n : Nat)
    (hne : req.sourceAccountID ≠ req.destinationAccountID)
    (hp : ParseMoney req.amount = some amt) (hpos : 0 < amt)
    (h0 : 0 < n) (hn : n ≤ cfg.maxRetries)
    (hall : ∀ k, k < n → ∃ e,
      (executeTransfer (envs k) req.sourceAccountID req.destinationAccountID amt).1 = .error e ∧
      IsRetryable (some e) = true)
    (hcf : ∀ k, 0 < k → k < n → cancel k = false)
    (hcn : cancel n = true) :
    ∃ pre,
      Transfer cfg envs cancel ctxErr req
        = (.error ctxErr, pre ++ [.wait (retryDelay cfg n)]) ∧
      waitsOf pre = (List.range (n - 1)).map (fun i => retryDelay cfg (i + 1)) ∧
      retryDelay cfg n = cfg.retryBaseDelay * 2 ^ (n - 1) := by
  rw [Transfer_valid cfg envs cancel ctxErr req amt hne hp hpos]
  obtain ⟨e0, he0, hre0⟩ := hall 0 h0
  rw [transferLoop_retry_step cfg envs cancel ctxErr req.sourceAccountID
    req.destinationAccountID amt 0 cfg.maxRetries none e0 (by simp) he0 hre0]
  obtain ⟨pre1, hloop, hwaits⟩ :=
    transferLoop_cancel_at cfg envs cancel ctxErr req.sourceAccountID
      req.destinationAccountID amt (n - 1) 1 cfg.maxRetries (some e0)
      (by omega) (by omega)
      (fun k hk1 hk2 => hall k (by omega))
      (fun k hk1 hk2 => hcf k (by omega) (by omega))
      (by rw [show 1 + (n - 1) = n by omega]; exact hcn)
  rw [show 1 + (n - 1) = n by omega] at hloop
  simp only [Nat.zero_add]
  rw [hloop]
  refine ⟨(executeTransfer (envs 0) req.sourceAccountID req.destinationAccountID amt).2
      ++ pre1, ?_, ?_, rfl⟩
  · simp [List.append_assoc]
  · rw [waitsOf_append,
      executeTransfer_no_wait (envs 0) req.sourceAccountID req.destinationAccountID amt,
      hwaits]
    simp only [List.nil_append]
    apply List.map_congr_left
    intro i hi
    congr 1
    omega

/-- Claim C2 as amended: a failed BeginTx is wrapped as a DatabaseError and
returned at once with a single attempt and no retry whenever the wrapped
error text carries no transient marker; fatality of a begin failure does
depend on the text of the underlying cause, because the wrapped error goes
through the same text classifier as every other attempt error. -/
theorem Transfer_begin_failure_no_marker (cfg : TransferServiceConfig)
    (envs : Nat → AttemptEnv) (cancel : Nat → Bool) (ctxErr : Err)
    (req : CreateTransactionRequest) (amt : Money) (c : Err)
    (hne : req.sourceAccountID ≠ req.destinationAccountID)
    (hp : ParseMoney req.amount = some amt) (hpos : 0 < amt)
    (hb : (envs 0).beginResult = some c)
    (hfatal : IsRetryable
      (some (.wrapped .databaseError "failed to begin transaction" c)) = false) :
    Transfer cfg envs cancel ctxErr req
      = (.error (.wrapped .databaseError "failed to begin transaction" c), [.beginTx]) := by
  rw [Transfer_valid cfg envs cancel ctxErr req amt hne hp hpos]
  have hex := executeTransfer_begin_failure (envs 0) req.sourceAccountID
    req.destinationAccountID amt c hb
  rw [transferLoop_fatal cfg envs cancel ctxErr req.sourceAccountID
    req.destinationAccountID amt 0 cfg.maxRetries none
    (.wrapped .databaseError "failed to begin transaction" c)
    (by simp) (by rw [hex]) hfatal]
  simp [hex]

/-- Store behaviour whose BeginTx always fails with a connection loss, the
shape of a transient infrastructure outage. -/
def connRefusedEnv : AttemptEnv where
  beginResult := some (.base "connection refused")
  lockResult := fun _ => .error ErrAccountNotFound
  updateResult := fun _ _ => none
  createResult := .ok 1
  commitResult := none

set_option maxRecDepth 10000 in
/-- Counterexample to claim C2: with the default configuration and a BeginTx
that fails every attempt with a connection-refused cause, the engine does not
return a fatal DatabaseError immediately: the wrapped begin error matches the
transient-marker scan, the attempt is retried after each backoff, four store
transactions are begun, and the final result is TransactionFailed wrapping
the begin error, not the begin error itself. -/
theorem Transfer_begin_failure_retried_cex :
    Transfer DefaultTransferConfig (fun _ => connRefusedEnv) (fun _ => false)
      (.base "context canceled") ⟨1, 2, "5"⟩
      = (.error (.wrapped .transactionFailed "transfer failed after retries"
          (.wrapped .databaseError "failed to begin transaction" (.base "connection refused"))),
         [.beginTx, .wait 100000000, .beginTx, .wait 200000000, .beginTx,
          .wait 400000000, .beginTx]) := by
  decide

/-- Store behaviour in which every call succeeds: both accounts exist with
balance five and the insert assigns transaction id seven. -/
def witnessEnv : AttemptEnv where
  beginResult := none
  lockResult := fun id => .ok ⟨id, 5⟩
  updateResult := fun _ _ => none
  createResult := .ok 7
  commitResult := none

/-- Store behaviour in which every call succeeds but both balances are three,
below the transferred amount of five. -/
def lowBalanceEnv : AttemptEnv where
  beginResult := none
  lockResult := fun id => .ok ⟨id, 3⟩
  updateResult := fun _ _ => none
  createResult := .ok 7
  commitResult := none

/-- Store behaviour whose BeginTx always fails with a cause that carries no
transient marker. -/
def diskFullEnv : AttemptEnv where
  beginResult := some (.base "disk full")
  lockResult := fun _ => .error ErrAccountNotFound
  updateResult := fun _ _ => none
  createResult := .ok 1
  commitResult := none

/-- Witness for claim C1 at a concrete run: transferring five between two
accounts of balance five writes zero and ten, conserving the locked sum. -/
theorem executeTransfer_conservation_witness :
    (executeTransfer witnessEnv 1 2 5).2.filterMap lockAccountOf = [⟨1, 5⟩, ⟨2, 5⟩] ∧
    (executeTransfer witnessEnv 1 2 5).2.filterMap updateOf = [(1, 0), (2, 10)] ∧
    (0 : Money) + 10 = (⟨1, 5⟩ : Account).balance + (⟨2, 5⟩ : Account).balance := by
  have h1 : (executeTransfer witnessEnv 1 2 5).2.filterMap lockAccountOf
      = [⟨1, 5⟩, ⟨2, 5⟩] := by
    norm_num [executeTransfer, witnessEnv, lockAccountOf, List.filterMap_cons]
  have h2 : (executeTransfer witnessEnv 1 2 5).2.filterMap updateOf = [(1, 0), (2, 10)] := by
    norm_num [executeTransfer, witnessEnv, updateOf, List.filterMap_cons]
  exact ⟨h1, h2, executeTransfer_conservation witnessEnv 1 2 5 ⟨1, 5⟩ ⟨2, 5⟩ 1 2 0 10 h1 h2⟩

/-- Witness for claim C3 at the concrete transfer of the specification: a
transfer from id 2 to id 1 locks id 1 first and id 2 second. -/
theorem executeTransfer_lock_order_witness :
    (executeTransfer witnessEnv 2 1 5).2.filterMap lockIdOf = [1, 2] := by
  have h := (executeTransfer_lock_order witnessEnv 2 1 5 (by decide) rfl).1 ⟨1, 5⟩ (by decide)
  rw [h]
  decide

/-- Witness for the amended claim C2: a begin failure whose cause text has no
transient marker is returned at once as the wrapped DatabaseError, with a
single begun transaction and no retry. -/
theorem Transfer_begin_failure_no_marker_witness :
    Transfer DefaultTransferConfig (fun _ => diskFullEnv) (fun _ => false)
      (.base "context canceled") ⟨1, 2, "5"⟩
      = (.error (.wrapped .databaseError "failed to begin transaction" (.base "disk full")),
         [.beginTx]) :=
  Transfer_begin_failure_no_marker DefaultTransferConfig (fun _ => diskFullEnv)
    (fun _ => false) (.base "context canceled") ⟨1, 2, "5"⟩ 5 (.base "disk full")
    (by decide) (by decide) (by decide) rfl (by decide)

/-- Witness for claim C4: four persistent connection failures exhaust the
default budget of four attempts and surface TransactionFailed wrapping the
last begin error. -/
theorem Transfer_retries_exhausted_witness :
    ∃ eLast tr,
      (executeTransfer connRefusedEnv (1 : Int) 2 5).1 = .error eLast ∧
      Transfer DefaultTransferConfig (fun _ => connRefusedEnv) (fun _ => false)
        (.base "context canceled") ⟨1, 2, "5"⟩
        = (.error (.wrapped .transactionFailed "transfer failed after retries" eLast), tr) ∧
      countBeginTx tr = DefaultTransferConfig.maxRetries + 1 := by
  have h := Transfer_retries_exhausted DefaultTransferConfig (fun _ => connRefusedEnv)
    (fun _ => false) (.base "context canceled") ⟨1, 2, "5"⟩ 5
    (by decide) (by decide) (by decide)
    (fun k =>
      ⟨.wrapped .databaseError "failed to begin transaction" (.base "connection refused"),
        by
          show (executeTransfer connRefusedEnv (1 : Int) 2 5).1
            = .error (.wrapped .databaseError "failed to begin transaction"
                (.base "connection refused"))
          decide,
        by decide⟩)
    (fun k => rfl)
  simpa using h

/-- Witness for claim C5: balances of three cannot cover a transfer of five;
the engine fails with InsufficientBalance after one attempt, no write and a
rollback. -/
theorem Transfer_insufficient_balance_witness :
    ∃ tr, Transfer DefaultTransferConfig (fun _ => lowBalanceEnv) (fun _ => false)
        (.base "context canceled") ⟨1, 2, "5"⟩ = (.error ErrInsufficientBalance, tr) ∧
      countBeginTx tr = 1 ∧ tr.filterMap updateOf = [] ∧ Event.rollback ∈ tr := by
  have h := Transfer_insufficient_balance DefaultTransferConfig (fun _ => lowBalanceEnv)
    (fun _ => false) (.base "context canceled") ⟨1, 2, "5"⟩ 5 ⟨1, 3⟩ ⟨2, 3⟩
    (by decide) (by decide) (by decide) rfl (by decide) (by decide) (by decide)
  simpa using h

/-- Witness for claim C7: an unparsable amount text fails with InvalidAmount
and an empty store trace. -/
theorem Transfer_invalid_amount_witness :
    Transfer DefaultTransferConfig (fun _ => witnessEnv) (fun _ => false)
      (.base "context canceled") ⟨1, 2, "abc"⟩ = (.error ErrInvalidAmount, []) :=
  Transfer_invalid_amount DefaultTransferConfig (fun _ => witnessEnv) (fun _ => false)
    (.base "context canceled") ⟨1, 2, "abc"⟩ (by decide) (Or.inl (by decide))

/-- Witness for claim C8: with retryable begin failures and cancellation
firing during the wait before attempt two, the engine returns the context
error right after that wait; the only earlier wait is the attempt-one delay. -/
theorem Transfer_backoff_cancellation_witness :
    ∃ pre,
      Transfer DefaultTransferConfig (fun _ => connRefusedEnv) (fun k => decide (k = 2))
        (.base "context canceled") ⟨1, 2, "5"⟩
        = (.error (.base "context canceled"),
           pre ++ [.wait (retryDelay DefaultTransferConfig 2)]) ∧
      waitsOf pre = (List.range 1).map (fun i => retryDelay DefaultTransferConfig (i + 1)) ∧
      retryDelay DefaultTransferConfig 2 = DefaultTransferConfig.retryBaseDelay * 2 ^ 1 := by
  have h := Transfer_backoff_cancellation DefaultTransferConfig (fun _ => connRefusedEnv)
    (fun k => decide (k = 2)) (.base "context canceled") ⟨1, 2, "5"⟩ 5 2
    (by decide) (by decide) (by decide) (by decide) (by decide)
    (fun k hk =>
      ⟨.wrapped .databaseError "failed to begin transaction" (.base "connection refused"),
        by
          show (executeTransfer connRefusedEnv (1 : Int) 2 5).1
            = .error (.wrapped .databaseError "failed to begin transaction"
                (.base "connection refused"))
          decide,
        by decide⟩)
    (fun k h1 h2 => by
      have hk1 : k = 1 := by omega
      subst hk1
      rfl)
    (by decide)
  simpa using h

/-- Witness for claim C9: a request of limit zero and offset minus three is
served with the default page size and offset zero, and an empty repository
page is returned as a success. -/
theorem GetAccountTransactions_paging_witness :
    GetAccountTransactions (fun _ _ _ => .ok []) 1 0 (-3) = .ok [] :=
  (GetAccountTransactions_paging (fun _ _ _ => .ok []) 1 0 (-3)).2 rfl

/-- Witness for claim C10: a source balance of exactly five covers a transfer
of five; the engine succeeds and writes a source balance of zero. -/
theorem Transfer_exact_balance_drain_witness :
    ∃ tr, Transfer DefaultTransferConfig (fun _ => witnessEnv) (fun _ => false)
        (.base "context canceled") ⟨1, 2, "5"⟩ = (.ok ⟨7, 1, 2, 5⟩, tr) ∧
      ((⟨1, 5⟩ : Account).balance - 5 = 0) ∧ Event.updateBalance 1 0 ∈ tr := by
  have h := Transfer_exact_balance_drain DefaultTransferConfig (fun _ => witnessEnv)
    (fun _ => false) (.base "context canceled") ⟨1, 2, "5"⟩ 5 ⟨1, 5⟩ ⟨2, 5⟩ 7
    (by decide) (by decide) (by decide) rfl (by decide) (by decide) (by decide)
    rfl rfl rfl rfl
  simpa using h

end Transfers
